import Mathlib

/-!
Shallow embedding of the benchmark master process (`main.js`) of the
aerospike-client-nodejs benchmark harness: worker-pool role assignment,
per-second interval-stats aggregation, the message dispatcher, the
read/write continuation rule, operation-mix computation, and the
cluster exit handling.  Definitions are translated directly from the
source; theorems settle the specification claims about them.
-/

namespace Benchmark

/-! ### Interval counters table

`interval_stats` in the source is a 4×3 array of numbers
(`OP_TYPES = 4`, `STATS = 3`, lines 32-33, 46, 257-259).  We model it
as a function `Fin 4 → Fin 3 → ℤ`. -/

abbrev Table := Fin 4 → Fin 3 → ℤ

/-- Function `reset_interval_stats` (lines 257-259): the all-zero 4×3 table. -/
def reset_interval_stats : Table := fun _ _ => 0

/-- The per-cell sum performed by the nested loops of
`worker_results_interval` (lines 181-185):
`interval_stats[i][j] = interval_stats[i][j] + interval_worker_stats[i][j]`. -/
def addTable (a b : Table) : Table := fun i j => a i j + b i j

/-! ### Stats aggregator state

`counter` (line 179) is the cumulative number of times
`worker_results_interval` has been called; `interval_stats` is the
global per-tick table.  The one-second timer (lines 249-252) resets the
table; the flush happens inside `worker_results_interval` when
`++counter % argv.processes === 0` (line 186). -/

structure AggState where
  counter : Nat
  interval_stats : Table

/-- Function `worker_results_interval` (lines 180-197): fold the worker's table
into the global table, bump the cumulative call counter, and flush to
the stats sink when the bumped counter is divisible by
`argv.processes`.  Returns the new state and whether a flush (call of
`stats.interval`) happened.  Note the function never resets
`interval_stats`. -/
def worker_results_interval (processes : Nat) (s : AggState) (t : Table) :
    AggState × Bool :=
  let stats := addTable s.interval_stats t
  let c := s.counter + 1
  (⟨c, stats⟩, c % processes == 0)

/-- Events seen by the aggregator: an interval report from a worker, or
the one-second timer tick (lines 249-252), which resets the table (and
only the table; `counter` is untouched). -/
inductive AggEvent
  | report (t : Table)
  | tick

/-- One aggregator step: the `setInterval` callback (lines 249-252)
calls `reset_interval_stats`; an incoming interval report runs
`worker_results_interval`.  The `Bool` records whether this event
flushed to the stats sink. -/
def aggStep (processes : Nat) (s : AggState) : AggEvent → AggState × Bool
  | .report t => worker_results_interval processes s t
  | .tick => (⟨s.counter, reset_interval_stats⟩, false)

/-- Aggregator state extended with a ghost count of reports received
since the last tick, used only to state claims about
"reports received in the current tick" (the source keeps no such
count). -/
structure AggGhost where
  st : AggState
  thisTick : Nat

/-- Ghost-instrumented aggregator step: same transitions as `aggStep`,
additionally counting reports since the last tick. -/
def aggGhostStep (processes : Nat) (g : AggGhost) : AggEvent → AggGhost × Bool
  | .report t =>
      let r := aggStep processes g.st (.report t)
      (⟨r.1, g.thisTick + 1⟩, r.2)
  | .tick => (⟨(aggStep processes g.st .tick).1, 0⟩, false)

/-! ### Read/write continuation rule and message dispatcher -/

/-- The continuation condition of `worker_results_iteration`
(line 217):
`argv.iterations === undefined || worker.iteration < argv.iterations || argv.time !== undefined`.
`iterations` and `time` are `undefined`-able config fields, modelled as
`Option`; `iter` is the worker's iteration counter. -/
def rwContinue (iterations : Option Nat) (time : Option Nat) (iter : Nat) : Bool :=
  match iterations with
  | none => true
  | some l => decide (iter < l) || time.isSome

/-- Actions the master can take on a worker in response to events:
dispatch a read/write job (`rwWorkerJob`, which sends `['run', …]`),
dispatch a query/scan job (`queryWorkerJob`/`scanWorkerJob`, which send
`['query', …]`), send the `['end']` signal (`worker_exit`), hand an
alert to the alert channel, or fold an interval report into the global
table. -/
inductive Action
  | sendRun
  | sendQueryJob
  | sendEnd
  | handleAlert
  | foldInterval
  deriving DecidableEq

/-- Function `worker_results_iteration` (lines 215-222) without the
`stats.iteration` side call: dispatch another read/write job when the
continuation condition holds, otherwise send `end`. -/
def worker_results_iteration (iterations time : Option Nat) (iter : Nat) : Action :=
  if rwContinue iterations time iter then .sendRun else .sendEnd

/-- The per-worker message dispatcher `worker_results` (lines 224-234):
tag `'stats'` goes to `worker_results_iteration`, tag `'alert'` to the
alert handler, and every other tag to `worker_results_interval`. -/
def worker_results (iterations time : Option Nat) (iter : Nat) (tag : String) :
    Action :=
  if tag = "stats" then worker_results_iteration iterations time iter
  else if tag = "alert" then .handleAlert
  else .foldInterval

/-! ### Closed-loop read/write worker trace

In iteration-limit mode a worker is dispatched its first job at the
`online` event (`rwWorkerJob` sets the counter from 0 to 1, lines
142-143, 284) and then sends one completion report per job; each report
runs `worker_results_iteration`.  After `end` is sent the worker exits
and reports no more. -/

/-- Messages the master sends a read/write worker over its life. -/
inductive RwMsg
  | run
  | endSignal
  deriving DecidableEq

/-- The report-driven loop: at each completion report, either a new job
is dispatched (incrementing the iteration counter, `rwWorkerJob`
line 142) and the worker later reports again, or `end` is sent and the
loop stops.  `fuel` bounds the number of reports considered. -/
def rwSim (iterations time : Option Nat) : Nat → Nat → List RwMsg
  | 0, _ => []
  | fuel + 1, iter =>
      if rwContinue iterations time iter then
        .run :: rwSim iterations time fuel (iter + 1)
      else
        [.endSignal]

/-- Full message trace to one read/write worker in iteration-limit
mode: the initial job at the `online` event (counter becomes 1),
followed by the report-driven loop. -/
def rwTrace (l : Nat) (fuel : Nat) : List RwMsg :=
  .run :: rwSim (some l) none fuel 1

/-! ### Role assignment (`cluster.on('online')`, lines 280-292)

The three online-counters start at 0; the `rwOnline < rwWorkers`
comparison is against `rwWorkers = argv.processes − queryWorkers −
scanWorkers` (line 57), which can be negative, hence `Int`. -/

/-- A worker's assigned role; `noRole` models the final implicit branch
(no job dispatched) when all slots are filled. -/
inductive Role
  | readWrite
  | query (id : Nat)
  | scan
  | noRole
  deriving DecidableEq

structure PoolState where
  rwOnline : Nat
  queryOnline : Nat
  scanOnline : Nat
  deriving DecidableEq

/-- The `cluster.on('online')` handler (lines 280-292): fill ReadWrite
slots first, then Query slots (the job is built from
`argv.querySpec[queryOnline]` before the increment, lines 286-287),
then Scan slots. -/
def onlineHandler (rwWorkers : Int) (queryWorkers scanWorkers : Nat)
    (s : PoolState) : PoolState × Role :=
  if (s.rwOnline : Int) < rwWorkers then
    (⟨s.rwOnline + 1, s.queryOnline, s.scanOnline⟩, .readWrite)
  else if s.queryOnline < queryWorkers then
    (⟨s.rwOnline, s.queryOnline + 1, s.scanOnline⟩, .query s.queryOnline)
  else if s.scanOnline < scanWorkers then
    (⟨s.rwOnline, s.queryOnline, s.scanOnline + 1⟩, .scan)
  else
    (s, .noRole)

/-- Pool state after `k` online events. -/
def poolAfter (rwWorkers : Int) (queryWorkers scanWorkers : Nat) : Nat → PoolState
  | 0 => ⟨0, 0, 0⟩
  | k + 1 =>
      (onlineHandler rwWorkers queryWorkers scanWorkers
        (poolAfter rwWorkers queryWorkers scanWorkers k)).1

/-- Role assigned at the `k`-th online event (0-indexed). -/
def roleOfEvent (rwWorkers : Int) (queryWorkers scanWorkers : Nat) (k : Nat) : Role :=
  (onlineHandler rwWorkers queryWorkers scanWorkers
    (poolAfter rwWorkers queryWorkers scanWorkers k)).2

/-! ### Query job construction (`queryWorkerJob`, lines 149-164) -/

/-- The fields of one entry of `argv.querySpec` that `queryWorkerJob`
reads. -/
structure QuerySpec where
  qtype : String
  bin : String
  min : Int
  max : Int
  value : Int

/-- A statement filter: `aerospike.filter.range(bin, min, max)` or
`aerospike.filter.equal(bin, value)`. -/
inductive Filter
  | range (bin : String) (min max : Int)
  | equal (bin : String) (value : Int)
  deriving DecidableEq

/-- The filter list attached to the statement by `queryWorkerJob`
(lines 150-156): a range filter for qtype `'Range'`, an equality filter
for `'Equal'`, and no filter for any other qtype (the statement stays
`{}`). -/
def queryWorkerJob (qc : QuerySpec) : Option Filter :=
  if qc.qtype = "Range" then some (.range qc.bin qc.min qc.max)
  else if qc.qtype = "Equal" then some (.equal qc.bin qc.value)
  else none

/-! ### Operation-mix computation (lines 64-73)

JavaScript numbers; the division is exact rational arithmetic here. -/

/-- Line 64: `FOPS = argv.operations / (argv.reads + argv.writes)`. -/
def FOPS (operations reads writes : ℚ) : ℚ := operations / (reads + writes)

/-- Line 65: `ROPS = FOPS * argv.reads`, before adjustment. -/
def ROPS (operations reads writes : ℚ) : ℚ := FOPS operations reads writes * reads

/-- Line 66: `WOPS = FOPS * argv.writes`. -/
def WOPS (operations reads writes : ℚ) : ℚ := FOPS operations reads writes * writes

/-- The shortfall adjustment (lines 70-73): when `ROPS + WOPS` falls
short of `operations`, the whole difference `DOPS` is added to `ROPS`. -/
def adjustROPS (operations rops wops : ℚ) : ℚ :=
  if rops + wops < operations then rops + (operations - (rops + wops)) else rops

/-! ### Master startup (lines 49-62 and 316-332) -/

/-- The configuration fields the startup path reads. -/
structure Config where
  processes : Nat
  querySpecCount : Nat
  scanSpecCount : Nat
  isMaster : Bool

/-- Line 57: `rwWorkers = argv.processes - queryWorkers - scanWorkers`;
may be negative. -/
def rwWorkers (cfg : Config) : Int :=
  (cfg.processes : Int) - cfg.querySpecCount - cfg.scanSpecCount

/-- Observable top-level startup effects of the master script. -/
inductive StartupEffect
  | fatalExit (code : Nat)
  | spawnWorker
  deriving DecidableEq

/-- The top-level startup of `main.js`: the only early exit is the
`cluster.isMaster` guard (lines 59-62, `process.exit()` with default
status 0); no statement between line 57 (computing `rwWorkers`) and the
spawn loop (lines 330-332) branches on `rwWorkers`, and the loop spawns
`argv.processes` workers unconditionally. -/
def masterStartup (cfg : Config) : List StartupEffect :=
  if cfg.isMaster then
    List.replicate cfg.processes .spawnWorker
  else
    [.fatalExit 0]

/-! ### Cluster exit handling (`cluster.on('exit')`, lines 298-310, and
`cluster.on('online')` line 281) -/

structure LifeState where
  online : Nat
  exited : Nat
  exitCode : Option Nat
  deriving DecidableEq

inductive ClusterEvent
  | workerOnline
  | workerExit (code : Nat)

/-- One lifecycle step.  `online++` on each online event (line 281).
On a worker exit (lines 298-310): a non-zero status calls
`process.exit(1)` immediately; status 0 increments `exited`, and when
`exited === online` the master calls `process.exit(0)`.  Once the
process has exited no further events are handled (absorbing). -/
def clusterStep (s : LifeState) : ClusterEvent → LifeState
  | .workerOnline =>
      if s.exitCode.isSome then s else ⟨s.online + 1, s.exited, s.exitCode⟩
  | .workerExit c =>
      if s.exitCode.isSome then s
      else if c ≠ 0 then ⟨s.online, s.exited, some 1⟩
      else if s.exited + 1 = s.online then ⟨s.online, s.exited + 1, some 0⟩
      else ⟨s.online, s.exited + 1, s.exitCode⟩

/-- Run the lifecycle over a list of events from the initial state. -/
def clusterRun (events : List ClusterEvent) : LifeState :=
  events.foldl clusterStep ⟨0, 0, none⟩

/-! ## Concrete data used by counterexamples and witnesses -/

/-- A worker report whose read-operation cell is 1 and every other cell 0. -/
def tC : Table := fun i j => if i = 0 ∧ j = 0 then 1 else 0

/-- Concrete worker report for the fold-permutation witness. -/
def tA : Table := fun i j => (i : ℤ) * 3 + (j : ℤ)

/-- Second concrete worker report for the fold-permutation witness. -/
def tB : Table := fun _ _ => 1

/-- Configuration with 1 process and 2 query specs: `rwWorkers = -1`. -/
def c2cfg : Config := ⟨1, 2, 0, true⟩

/-- Ghost aggregator state after a report and then a tick, with
`argv.processes = 2`. -/
def c1ghost2 : AggGhost :=
  (aggGhostStep 2 (aggGhostStep 2 ⟨⟨0, reset_interval_stats⟩, 0⟩ (.report tC)).1 .tick).1

/-! ## Claims -/

/-- C6. For `operations=1000, reads=7, writes=3` the computed
counts are exactly `ROPS = 700` and `WOPS = 300`; and whenever
`ROPS + WOPS` falls short of `operations`, the entire shortfall is
added to `ROPS` (the adjusted value is `operations − WOPS`). -/
theorem C6_operation_mix (operations rops wops : ℚ)
    (h : rops + wops < operations) :
    (adjustROPS 1000 (ROPS 1000 7 3) (WOPS 1000 7 3) = 700 ∧
      WOPS 1000 7 3 = 300) ∧
    adjustROPS operations rops wops = operations - wops := by
  refine ⟨⟨?_, ?_⟩, ?_⟩
  · norm_num [adjustROPS, ROPS, WOPS, FOPS]
  · norm_num [WOPS, FOPS]
  · unfold adjustROPS
    rw [if_pos h]
    ring

/-- Witness for C6 at `operations = 10`, `rops = 6`, `wops = 3`. -/
theorem C6_operation_mix_witness :
    (6 : ℚ) + 3 < 10 ∧
    ((adjustROPS 1000 (ROPS 1000 7 3) (WOPS 1000 7 3) = 700 ∧
        WOPS 1000 7 3 = 300) ∧
      adjustROPS 10 6 3 = 10 - 3) :=
  ⟨by norm_num, C6_operation_mix 10 6 3 (by norm_num)⟩

/-- C8. The job built for a Query worker carries a range filter
(bin, min, max) when the spec's qtype is `'Range'`, an equality filter
(bin, value) when it is `'Equal'`, and no filter for any other qtype. -/
theorem C8_query_filters (qc : QuerySpec) :
    (qc.qtype = "Range" →
      queryWorkerJob qc = some (.range qc.bin qc.min qc.max)) ∧
    (qc.qtype = "Equal" →
      queryWorkerJob qc = some (.equal qc.bin qc.value)) ∧
    (qc.qtype ≠ "Range" → qc.qtype ≠ "Equal" → queryWorkerJob qc = none) := by
  refine ⟨fun h => ?_, fun h => ?_, fun h1 h2 => ?_⟩
  · simp [queryWorkerJob, h]
  · have h' : qc.qtype ≠ "Range" := by simp [h]
    simp [queryWorkerJob, h, h']
  · simp [queryWorkerJob, h1, h2]

/-- Witness for C8 at one concrete spec per qtype. -/
theorem C8_query_filters_witness :
    queryWorkerJob ⟨"Range", "b", 1, 5, 0⟩ = some (.range "b" 1 5) ∧
    queryWorkerJob ⟨"Equal", "b", 0, 0, 7⟩ = some (.equal "b" 7) ∧
    queryWorkerJob ⟨"Fuzzy", "b", 0, 0, 7⟩ = none :=
  ⟨(C8_query_filters ⟨"Range", "b", 1, 5, 0⟩).1 rfl,
   (C8_query_filters ⟨"Equal", "b", 0, 0, 7⟩).2.1 rfl,
   (C8_query_filters ⟨"Fuzzy", "b", 0, 0, 7⟩).2.2 (by decide) (by decide)⟩

/-- C10. The dispatcher treats every message whose tag is neither
`'stats'` nor `'alert'` — including tags outside the protocol — as an
interval report; unknown tags are never rejected. -/
theorem C10_unknown_tags (iterations time : Option Nat) (iter : Nat)
    (tag : String) (h1 : tag ≠ "stats") (h2 : tag ≠ "alert") :
    worker_results iterations time iter tag = .foldInterval := by
  simp [worker_results, h1, h2]

/-- Witness for C10 at the out-of-protocol tag `'bogus'`. -/
theorem C10_unknown_tags_witness :
    ("bogus" ≠ "stats" ∧ "bogus" ≠ "alert") ∧
    worker_results none none 0 "bogus" = .foldInterval :=
  ⟨⟨by decide, by decide⟩,
    C10_unknown_tags none none 0 "bogus" (by decide) (by decide)⟩

/-- C7 counterexample. In the configuration `processes = 1`,
one query spec, duration mode (so `argv.iterations` is `undefined`,
line 77): the sole worker is assigned the Query role at its online
event, yet when it sends a completion report (tag `'stats'`) the
dispatcher — which never inspects the worker's role — dispatches it a
further (ReadWrite) job. -/
theorem C7_counterexample :
    roleOfEvent (rwWorkers ⟨1, 1, 0, true⟩) 1 0 0 = .query 0 ∧
    worker_results none (some 60) 0 "stats" = .sendRun := by
  constructor
  · decide
  · rfl

/-- C7 amended. Query and Scan jobs are dispatched only at role
assignment, never by the message handler: `worker_results` never emits
a query/scan job.  But the handler is role-agnostic: on a completion
report it applies the ReadWrite continuation rule regardless of the
worker's role, so a Query or Scan worker that reports completion is
dispatched a ReadWrite job (or sent `end`). -/
theorem C7_no_query_redispatch (iterations time : Option Nat) (iter : Nat)
    (tag : String) :
    worker_results iterations time iter tag ≠ Action.sendQueryJob ∧
    worker_results iterations time iter "stats" =
      worker_results_iteration iterations time iter := by
  constructor
  · unfold worker_results worker_results_iteration
    split
    · split <;> simp
    · split <;> simp
  · simp [worker_results]

/-- Witness for C7's amended theorem at a concrete worker state. -/
theorem C7_no_query_redispatch_witness :
    worker_results (some 5) none 2 "stats" ≠ Action.sendQueryJob ∧
    worker_results (some 5) none 2 "stats" =
      worker_results_iteration (some 5) none 2 :=
  C7_no_query_redispatch (some 5) none 2 "stats"

/-- C2 counterexample. With `processes = 1` and two query specs,
`rwWorkers = 1 − 2 − 0 = −1` is negative, yet the master performs no
validation: it spawns its one worker and never terminates with a
configuration fault. -/
theorem C2_counterexample :
    rwWorkers c2cfg < 0 ∧ masterStartup c2cfg = [StartupEffect.spawnWorker] := by
  constructor
  · decide
  · rfl

/-- C2 amended. The master never validates `rwWorkers`: on the
master path it always spawns exactly `argv.processes` workers and emits
no fatal exit; a negative `rwWorkers` merely means the ReadWrite slots
are never filled — no online event, whatever its position in the
sequence, is assigned the ReadWrite role. -/
theorem C2_no_validation (cfg : Config) (h : cfg.isMaster = true) :
    (masterStartup cfg).length = cfg.processes ∧
    (∀ e ∈ masterStartup cfg, e = StartupEffect.spawnWorker) ∧
    (rwWorkers cfg < 0 → ∀ k,
      roleOfEvent (rwWorkers cfg) cfg.querySpecCount cfg.scanSpecCount k ≠
        .readWrite) := by
  refine ⟨?_, ?_, fun hneg k => ?_⟩
  · simp [masterStartup, h]
  · intro e he
    simp [masterStartup, h] at he
    exact he.2
  · unfold roleOfEvent onlineHandler
    have h0 : ¬ (((poolAfter (rwWorkers cfg) cfg.querySpecCount
        cfg.scanSpecCount k).rwOnline : Int) < rwWorkers cfg) := by
      omega
    rw [if_neg h0]
    split
    · simp
    · split <;> simp

/-- Witness for C2's amended theorem at the concrete configuration
`c2cfg` (1 process, 2 query specs), instantiated at online event 0. -/
theorem C2_no_validation_witness :
    c2cfg.isMaster = true ∧
    (masterStartup c2cfg).length = c2cfg.processes ∧
    roleOfEvent (rwWorkers c2cfg) c2cfg.querySpecCount c2cfg.scanSpecCount 0 ≠
      .readWrite :=
  ⟨rfl, (C2_no_validation c2cfg rfl).1,
    (C2_no_validation c2cfg rfl).2.2 (by decide) 0⟩

/-- C1 counterexample. First conjunct: with `processes = 1`, the
very first report flushes, and the global table immediately after the
flush is the summed table, not all-zero — `worker_results_interval`
never resets it (the reset lives in the one-second `setInterval`
callback).  Second conjunct: with `processes = 2`, after one report and
a tick, the next report flushes (cumulative counter 2 is divisible by
2) although only 1 report — not 2, the number of live workers — has
been received in the current tick. -/
theorem C1_counterexample :
    ((aggStep 1 ⟨0, reset_interval_stats⟩ (.report tC)).2 = true ∧
      (aggStep 1 ⟨0, reset_interval_stats⟩ (.report tC)).1.interval_stats ≠
        reset_interval_stats) ∧
    (c1ghost2.thisTick + 1 = 1 ∧
      (aggGhostStep 2 c1ghost2 (.report tC)).2 = true) := by
  refine ⟨⟨rfl, fun h => ?_⟩, rfl, rfl⟩
  have h00 := congrFun (congrFun h 0) 0
  simp [aggStep, worker_results_interval, addTable, reset_interval_stats, tC]
    at h00

/-- C1 amended. The flush in `worker_results_interval` fires iff
the cumulative number of interval reports received since startup is
divisible by `argv.processes` — tick boundaries and the number of live
workers play no part — and a flushing report leaves the global table
holding the summed counters; the table is reset to all-zero only by
the one-second timer tick. -/
theorem C1_flush_and_reset (processes : Nat) (s : AggState) (t : Table) :
    (aggStep processes s .tick).1.interval_stats = reset_interval_stats ∧
    ((aggStep processes s (.report t)).2 = true ↔
      (s.counter + 1) % processes = 0) ∧
    (aggStep processes s (.report t)).1.interval_stats =
      addTable s.interval_stats t ∧
    (aggStep processes s (.report t)).1.counter = s.counter + 1 := by
  refine ⟨rfl, ?_, rfl, rfl⟩
  simp [aggStep, worker_results_interval]

/-- Witness for C1's amended theorem at a concrete aggregator state. -/
theorem C1_flush_and_reset_witness :
    (aggStep 2 ⟨1, tC⟩ .tick).1.interval_stats = reset_interval_stats ∧
    ((aggStep 2 ⟨1, tC⟩ (.report tC)).2 = true ↔ (1 + 1) % 2 = 0) ∧
    (aggStep 2 ⟨1, tC⟩ (.report tC)).1.interval_stats = addTable tC tC ∧
    (aggStep 2 ⟨1, tC⟩ (.report tC)).1.counter = 1 + 1 :=
  C1_flush_and_reset 2 ⟨1, tC⟩ tC

/-- C3. A worker exiting with a non-zero status makes the master
exit with status 1 at once; a zero-status exit increments `exited` and
the master exits with status 0 exactly when all currently-online
workers have exited; and a run of `n ≥ 1` workers that all come online
and then all exit with status 0 ends with master exit status 0. -/
theorem C3_exit_codes (s : LifeState) (c : Nat) (hs : s.exitCode = none) :
    ((c ≠ 0 → (clusterStep s (.workerExit c)).exitCode = some 1) ∧
      (c = 0 → (clusterStep s (.workerExit c)).exitCode =
        if s.exited + 1 = s.online then some 0 else none)) ∧
    (∀ n, 1 ≤ n →
      (clusterRun (List.replicate n .workerOnline ++
        List.replicate n (.workerExit 0))).exitCode = some 0) := by
  have honline : ∀ n k e, (List.replicate n ClusterEvent.workerOnline).foldl
      clusterStep ⟨k, e, none⟩ = ⟨k + n, e, none⟩ := by
    intro n
    induction n with
    | zero => intro k e; simp
    | succ n ih =>
      intro k e
      rw [List.replicate_succ, List.foldl_cons]
      have hstep : clusterStep ⟨k, e, none⟩ .workerOnline = ⟨k + 1, e, none⟩ := by
        simp [clusterStep]
      rw [hstep, ih]
      have : k + 1 + n = k + (n + 1) := by omega
      rw [this]
  have hexits : ∀ m n e, 1 ≤ m → e + m = n →
      (List.replicate m (ClusterEvent.workerExit 0)).foldl
        clusterStep ⟨n, e, none⟩ = ⟨n, n, some 0⟩ := by
    intro m
    induction m with
    | zero => omega
    | succ m ih =>
      intro n e _ hsum
      rw [List.replicate_succ, List.foldl_cons]
      by_cases hm : m = 0
      · subst hm
        have hlast : e + 1 = n := by omega
        simp [clusterStep, hlast]
      · have hne : ¬ (e + 1 = n) := by omega
        have hstep : clusterStep ⟨n, e, none⟩ (.workerExit 0) =
            ⟨n, e + 1, none⟩ := by
          simp [clusterStep, hne]
        rw [hstep]
        exact ih n (e + 1) (by omega) (by omega)
  refine ⟨⟨fun hc => ?_, fun hc => ?_⟩, fun n hn => ?_⟩
  · simp [clusterStep, hs, hc]
  · subst hc
    by_cases hfull : s.exited + 1 = s.online
    · simp [clusterStep, hs, hfull]
    · simp [clusterStep, hs, hfull]
  · unfold clusterRun
    rw [List.foldl_append]
    have h1 := honline n 0 0
    rw [h1]
    have h2 := hexits n n 0 hn (by omega)
    simp only [Nat.zero_add] at h1 ⊢
    rw [hexits n n 0 hn (by omega)]

/-- Witness for C3 at the state `⟨online 2, exited 1, running⟩` with
exit codes 3 and 0, and a two-worker clean run. -/
theorem C3_exit_codes_witness :
    (⟨2, 1, none⟩ : LifeState).exitCode = none ∧
    (clusterStep ⟨2, 1, none⟩ (.workerExit 3)).exitCode = some 1 ∧
    (clusterStep ⟨2, 1, none⟩ (.workerExit 0)).exitCode = some 0 ∧
    (clusterRun (List.replicate 2 .workerOnline ++
      List.replicate 2 (.workerExit 0))).exitCode = some 0 := by
  refine ⟨rfl, ?_, ?_, ?_⟩
  · exact (C3_exit_codes ⟨2, 1, none⟩ 3 rfl).1.1 (by decide)
  · have h := (C3_exit_codes ⟨2, 1, none⟩ 0 rfl).1.2 rfl
    simpa using h
  · exact (C3_exit_codes ⟨2, 1, none⟩ 0 rfl).2 2 (by decide)

/-- The report-driven loop from iteration counter `iter ≤ l` dispatches
`l − iter` further jobs and then sends exactly one `end`. -/
theorem rwSim_closed_form (l : Nat) :
    ∀ fuel iter, iter ≤ l → l + 1 - iter ≤ fuel →
      rwSim (some l) none fuel iter =
        List.replicate (l - iter) .run ++ [.endSignal] := by
  intro fuel
  induction fuel with
  | zero => intro iter _ hfuel; omega
  | succ fuel ih =>
    intro iter hiter _
    by_cases hlt : iter < l
    · have hcont : rwContinue (some l) none iter = true := by
        simp [rwContinue, hlt]
      rw [rwSim, hcont]
      simp only [if_true]
      rw [ih (iter + 1) (by omega) (by omega)]
      have hrep : l - iter = (l - (iter + 1)) + 1 := by omega
      rw [hrep, List.replicate_succ, List.cons_append]
    · have hstop : rwContinue (some l) none iter = false := by
        simp [rwContinue]
        omega
      rw [rwSim, hstop]
      have hz : l - iter = 0 := by omega
      simp [hz]

/-- C4. In iteration-limit mode (`iterations = l`, no duration):
on each completion report the worker is dispatched a new job exactly
when its iteration counter is below `l`, and the full message trace to
the worker — the initial job at role assignment followed by the
report-driven loop — is exactly `l` `run` jobs followed by exactly one
`end` signal. -/
theorem C4_iteration_limit (l fuel iter : Nat) (hl : 1 ≤ l)
    (hfuel : l ≤ fuel) :
    (worker_results_iteration (some l) none iter =
      if iter < l then .sendRun else .sendEnd) ∧
    rwTrace l fuel = List.replicate l .run ++ [.endSignal] := by
  constructor
  · by_cases h : iter < l <;>
      simp [worker_results_iteration, rwContinue, h]
  · unfold rwTrace
    rw [rwSim_closed_form l fuel 1 (by omega) (by omega)]
    have hrep : l = (l - 1) + 1 := by omega
    rw [hrep, List.replicate_succ, List.cons_append]
    simp

/-- Witness for C4 at limit 3 with fuel 3 and counter 1. -/
theorem C4_iteration_limit_witness :
    (1 ≤ 3 ∧ 3 ≤ 3) ∧
    ((worker_results_iteration (some 3) none 1 =
        if 1 < 3 then .sendRun else .sendEnd) ∧
      rwTrace 3 3 = List.replicate 3 .run ++ [.endSignal]) :=
  ⟨⟨by decide, by decide⟩, C4_iteration_limit 3 3 1 (by decide) (by decide)⟩

/-- Per-cell table addition is commutative in its second pair. -/
theorem addTable_right_comm (a b c : Table) :
    addTable (addTable a b) c = addTable (addTable a c) b := by
  funext i j
  simp only [addTable]
  ring

/-- C9. Folding per-worker tables into the global table is
commutative and associative, and consequently folding any permutation
of a tick's reports into the global table yields the same per-cell
summed table. -/
theorem C9_fold_permutation (init : Table) (l1 l2 : List Table)
    (h : l1.Perm l2) :
    (∀ a b, addTable a b = addTable b a) ∧
    (∀ a b c, addTable (addTable a b) c = addTable a (addTable b c)) ∧
    l1.foldl addTable init = l2.foldl addTable init := by
  refine ⟨fun a b => ?_, fun a b c => ?_, ?_⟩
  · funext i j
    simp only [addTable]
    ring
  · funext i j
    simp only [addTable]
    ring
  · induction h generalizing init with
    | nil => rfl
    | cons x _ ih =>
      rw [List.foldl_cons, List.foldl_cons]
      exact ih (addTable init x)
    | swap x y l =>
      simp only [List.foldl_cons]
      rw [addTable_right_comm]
    | trans _ _ ih1 ih2 => exact (ih1 init).trans (ih2 init)

/-- Witness for C9 at the two concrete reports `tA`, `tB` swapped. -/
theorem C9_fold_permutation_witness :
    List.Perm [tA, tB] [tB, tA] ∧
    [tA, tB].foldl addTable reset_interval_stats =
      [tB, tA].foldl addTable reset_interval_stats :=
  ⟨List.Perm.swap tB tA [],
    (C9_fold_permutation reset_interval_stats [tA, tB] [tB, tA]
      (List.Perm.swap tB tA [])).2.2⟩

/-- Closed form of the pool counters after `k` online events, when the
ReadWrite slot count is a non-negative number `rw`. -/
theorem poolAfter_closed_form (rw q sc : Nat) (k : Nat) :
    poolAfter (rw : Int) q sc k =
      ⟨min k rw, min (k - rw) q, min (k - rw - q) sc⟩ := by
  induction k with
  | zero =>
    simp [poolAfter]
  | succ k ih =>
    rw [poolAfter, ih]
    unfold onlineHandler
    by_cases h1 : k < rw
    · have hc1 : ((min k rw : Nat) : Int) < (rw : Int) := by
        have : min k rw < rw := by omega
        exact_mod_cast this
      rw [if_pos hc1]
      simp only [PoolState.mk.injEq]
      refine ⟨by omega, by omega, by omega⟩
    · have hc1 : ¬ ((min k rw : Nat) : Int) < (rw : Int) := by
        have : ¬ min k rw < rw := by omega
        intro hcontra
        exact this (by exact_mod_cast hcontra)
      rw [if_neg hc1]
      by_cases h2 : k - rw < q
      · have hc2 : min (k - rw) q < q := by omega
        rw [if_pos hc2]
        simp only [PoolState.mk.injEq]
        refine ⟨by omega, by omega, by omega⟩
      · have hc2 : ¬ min (k - rw) q < q := by omega
        rw [if_neg hc2]
        by_cases h3 : k - rw - q < sc
        · have hc3 : min (k - rw - q) sc < sc := by omega
          rw [if_pos hc3]
          simp only [PoolState.mk.injEq]
          refine ⟨by omega, by omega, by omega⟩
        · have hc3 : ¬ min (k - rw - q) sc < sc := by omega
          rw [if_neg hc3]
          simp only [PoolState.mk.injEq]
          refine ⟨by omega, by omega, by omega⟩

/-- C5. Roles are assigned in fixed priority order over the online
events: events `0 … rw−1` get ReadWrite, events `rw … rw+q−1` get the
Query roles in query-spec list order (event `rw+i` gets query spec
`i`), and events `rw+q … rw+q+sc−1` get Scan. -/
theorem C5_role_priority (rw q sc k : Nat) :
    (k < rw → roleOfEvent (rw : Int) q sc k = .readWrite) ∧
    (rw ≤ k → k < rw + q →
      roleOfEvent (rw : Int) q sc k = .query (k - rw)) ∧
    (rw + q ≤ k → k < rw + q + sc → roleOfEvent (rw : Int) q sc k = .scan) := by
  unfold roleOfEvent
  rw [poolAfter_closed_form]
  unfold onlineHandler
  refine ⟨fun h => ?_, fun hlo hhi => ?_, fun hlo hhi => ?_⟩
  · have hc1 : ((min k rw : Nat) : Int) < (rw : Int) := by
      have : min k rw < rw := by omega
      exact_mod_cast this
    rw [if_pos hc1]
  · have hc1 : ¬ ((min k rw : Nat) : Int) < (rw : Int) := by
      have : ¬ min k rw < rw := by omega
      intro hcontra
      exact this (by exact_mod_cast hcontra)
    rw [if_neg hc1]
    have hc2 : min (k - rw) q < q := by omega
    rw [if_pos hc2]
    have hmin : min (k - rw) q = k - rw := by omega
    rw [hmin]
  · have hc1 : ¬ ((min k rw : Nat) : Int) < (rw : Int) := by
      have : ¬ min k rw < rw := by omega
      intro hcontra
      exact this (by exact_mod_cast hcontra)
    rw [if_neg hc1]
    have hc2 : ¬ min (k - rw) q < q := by omega
    rw [if_neg hc2]
    have hc3 : min (k - rw - q) sc < sc := by omega
    rw [if_pos hc3]

/-- Witness for C5 with 1 ReadWrite, 2 Query and 1 Scan slot: events
0, 2 and 3 get ReadWrite, the second Query spec, and Scan. -/
theorem C5_role_priority_witness :
    roleOfEvent (1 : Int) 2 1 0 = .readWrite ∧
    roleOfEvent (1 : Int) 2 1 2 = .query 1 ∧
    roleOfEvent (1 : Int) 2 1 3 = .scan := by
  refine ⟨?_, ?_, ?_⟩
  · exact (C5_role_priority 1 2 1 0).1 (by decide)
  · have h := (C5_role_priority 1 2 1 2).2.1 (by decide) (by decide)
    simpa using h
  · exact (C5_role_priority 1 2 1 3).2.2 (by decide) (by decide)

end Benchmark
